import Mathlib

/-
Verification development for the CodeAct agent turn pipeline
(`agenthub/codeact_agent/codeact_agent.py`).

Python strings are embedded as `List Char`.  The regex searches used by the
response decoder are embedded by their leftmost-match semantics for the four
concrete patterns that appear in the source:
  - a lazy pattern `OPEN(.*?)CLOSE` with `re.DOTALL` matches, when it matches
    at all, at the first occurrence of `OPEN`, with the group ending at the
    first occurrence of `CLOSE` after it;
  - a greedy pattern `OPEN(.*)CLOSE` (or `OPEN.*CLOSE`) with `re.DOTALL`
    matches at the first occurrence of `OPEN`, with the group ending at the
    last occurrence of `CLOSE` after it.
(If no `CLOSE` follows the first `OPEN`, none follows any later `OPEN`
either, so the whole search fails: this justifies matching at the first
`OPEN` occurrence only.)
-/

namespace CodeAct

/-- `startsWithTag pat s` holds when `pat` is an initial segment of `s`. -/
def startsWithTag : List Char → List Char → Bool
  | [], _ => true
  | _ :: _, [] => false
  | p :: ps, c :: cs => p = c && startsWithTag ps cs

/-- Split `s` at the first occurrence of `pat`: returns `(pre, post)` with
`s = pre ++ pat ++ post`, the occurrence being the leftmost one.  Embeds the
leftmost-search behaviour of `re` and of Python's `in`. -/
def splitAtSub (pat : List Char) : List Char → Option (List Char × List Char)
  | [] => none
  | c :: rest =>
    if startsWithTag pat (c :: rest) then some ([], (c :: rest).drop pat.length)
    else
      match splitAtSub pat rest with
      | some (pre, post) => some (c :: pre, post)
      | none => none

/-- Split `s` at the last occurrence of `pat`: returns `(pre, post)` with
`s = pre ++ pat ++ post`, the occurrence being the rightmost one. -/
def splitAtLastSub (pat : List Char) : List Char → Option (List Char × List Char)
  | [] => none
  | c :: rest =>
    match splitAtLastSub pat rest with
    | some (pre, post) => some (c :: pre, post)
    | none =>
      if startsWithTag pat (c :: rest) then some ([], (c :: rest).drop pat.length)
      else none

/-- Python's substring test `pat in s`. -/
def containsSub (pat s : List Char) : Bool :=
  (splitAtSub pat s).isSome

/-- Recursion core of `replaceAll`, structural on a fuel argument so that it
reduces definitionally.  Each step either drops one character (keeping it) or
drops `pat.length ≥ 1` characters (removing an occurrence), so fuel
`s.length` is never exhausted. -/
def replaceAllAux (pat : List Char) : Nat → List Char → List Char
  | _, [] => []
  | 0, s => s
  | fuel + 1, c :: rest =>
    if pat ≠ [] ∧ startsWithTag pat (c :: rest) = true then
      replaceAllAux pat fuel (List.drop pat.length (c :: rest))
    else c :: replaceAllAux pat fuel rest

/-- Python's `s.replace(pat, '')` for a nonempty `pat`: removes all
non-overlapping occurrences of `pat`, scanning left to right. -/
def replaceAll (pat s : List Char) : List Char :=
  replaceAllAux pat s.length s

/-- The whitespace characters stripped by Python's `str.strip()` (the ASCII
ones; all inputs in this development are ASCII). -/
def isPySpace (c : Char) : Bool :=
  c = ' ' || c = '\t' || c = '\n' || c = '\r' || c = '\x0b' || c = '\x0c'

/-- Python's `s.strip()`. -/
def pyStrip (s : List Char) : List Char :=
  ((s.dropWhile isPySpace).reverse.dropWhile isPySpace).reverse

/-- Python's slice `s[-n:]`.  Note the Python quirk: for `n = 0` the slice
`s[-0:]` is `s[0:]`, i.e. the whole string. -/
def pyTakeLast (n : Nat) (s : List Char) : List Char :=
  if n = 0 then s else s.drop (s.length - n)

/-- Leftmost match of the lazy pattern `OPEN(.*?)CLOSE` under `re.DOTALL`:
returns `(pre, grp, post)` with `s = pre ++ opn ++ grp ++ close ++ post`,
where `opn` sits at its first occurrence in `s` and `close` at its first
occurrence after that; group 0 of the match is `opn ++ grp ++ close`. -/
def matchLazy (opn close s : List Char) :
    Option (List Char × List Char × List Char) :=
  match splitAtSub opn s with
  | none => none
  | some (pre, rest) =>
    match splitAtSub close rest with
    | none => none
    | some (grp, post) => some (pre, grp, post)

/-- Leftmost match of the greedy pattern `OPEN(.*)CLOSE` under `re.DOTALL`:
as `matchLazy`, but the group ends at the last occurrence of `close`. -/
def matchGreedy (opn close s : List Char) :
    Option (List Char × List Char × List Char) :=
  match splitAtSub opn s with
  | none => none
  | some (pre, rest) =>
    match splitAtLastSub close rest with
    | none => none
    | some (grp, post) => some (pre, grp, post)

/-! ### The markup tags of the decoder grammar -/

def bashOpen : List Char := "<execute_bash>".toList
def bashClose : List Char := "</execute_bash>".toList
def ipythonOpen : List Char := "<execute_ipython>".toList
def ipythonClose : List Char := "</execute_ipython>".toList
def browseOpen : List Char := "<execute_browse>".toList
def browseClose : List Char := "</execute_browse>".toList
def finishOpen : List Char := "<finish>".toList
def finishClose : List Char := "</finish>".toList

/-- One auto-close step of `parse_response`: if the opening tag occurs but the
closing tag does not, append the closing tag. -/
def autoClose (a opn close : List Char) : List Char :=
  if containsSub opn a && !containsSub close a then a ++ close else a

/-- `parse_response` (source lines 44-49): the defensive repair pre-pass.  For
each of the tag families `bash`, `ipython`, `browse` (in that order, each step
seeing the result of the previous one, as the Python loop mutates `action`),
append the missing closing tag. -/
def parse_response (a : List Char) : List Char :=
  autoClose (autoClose (autoClose a bashOpen bashClose) ipythonOpen ipythonClose)
    browseOpen browseClose

/-- The literal truncation marker line of `truncate_observation`. -/
def truncMarker : List Char :=
  "\n[... Observation truncated due to length ...]\n".toList

/-- `truncate_observation` (source lines 107-118): return the observation
unchanged when within the ceiling, else first `max_chars // 2` characters,
the marker, and the Python slice `observation[-max_chars // 2:]`. -/
def truncate_observation (observation : List Char) (max_chars : Nat) : List Char :=
  if observation.length ≤ max_chars then observation
  else
    observation.take (max_chars / 2) ++ truncMarker ++
      pyTakeLast (max_chars / 2) observation

example : truncate_observation ("abc".toList) 10000 = "abc".toList := by decide

/-! ### Data model: prompt messages and history events -/

/-- A prompt message: the Python dict `{'role': ..., 'content': ...}`. -/
structure Msg where
  role : List Char
  content : List Char
deriving DecidableEq

/-- The `source` field of an event: `'user'` or `'agent'`. -/
inductive EventSource
  | user
  | agent
deriving DecidableEq

/-- The Action variants appearing in the source (`CmdRunAction`,
`IPythonRunCellAction`, `BrowseInteractiveAction`, `MessageAction`,
`AgentSummarizeAction`, `AgentFinishAction`), with the payload fields the
rendering code reads. -/
inductive ActionEv
  | cmdRun (command thought : List Char) (source : EventSource)
  | ipythonRunCell (code thought : List Char) (source : EventSource)
  | browseInteractive (browser_actions thought : List Char) (source : EventSource)
  | message (content : List Char) (source : EventSource)
  | summarize (source : EventSource)
  | finishAction (thought : List Char) (source : EventSource)
deriving DecidableEq

/-- The Observation variants appearing in the source (`CmdOutputObservation`,
`IPythonRunCellObservation`, `BrowserOutputObservation`, `SummaryObservation`),
plus a stand-in for any other observation class (mapped to no message). -/
inductive ObservationEv
  | cmdOutput (content : List Char) (command_id exit_code : Int)
  | ipythonOutput (content : List Char)
  | browserOutput (content : List Char)
  | summaryObs (content : List Char)
  | otherObs
deriving DecidableEq

/-- A history event: an Action or an Observation (`isinstance(event, Action)`
dispatch in `_get_messages`). -/
inductive Event
  | action (a : ActionEv)
  | observation (o : ObservationEv)
deriving DecidableEq

def ActionEv.source : ActionEv → EventSource
  | .cmdRun _ _ s => s
  | .ipythonRunCell _ _ s => s
  | .browseInteractive _ _ s => s
  | .message _ s => s
  | .summarize s => s
  | .finishAction _ s => s

/-- `'user' if action.source == 'user' else 'assistant'`. -/
def roleOfSource : EventSource → List Char
  | .user => "user".toList
  | .agent => "assistant".toList

/-- `action_to_str` (source lines 52-61). -/
def action_to_str : ActionEv → List Char
  | .cmdRun command thought _ =>
      thought ++ "\n<execute_bash>\n".toList ++ command ++ "\n</execute_bash>".toList
  | .ipythonRunCell code thought _ =>
      thought ++ "\n<execute_ipython>\n".toList ++ code ++ "\n</execute_ipython>".toList
  | .browseInteractive acts thought _ =>
      thought ++ "\n<execute_browse>\n".toList ++ acts ++ "\n</execute_browse>".toList
  | .message content _ => content
  | _ => []

/-- `get_action_message` (source lines 64-76): the five listed action classes
map to a role derived from `source` and the `action_to_str` body; any other
action (in particular `AgentFinishAction`) maps to no message. -/
def get_action_message : ActionEv → Option Msg
  | .cmdRun c t s =>
      some { role := roleOfSource s, content := action_to_str (.cmdRun c t s) }
  | .ipythonRunCell c t s =>
      some { role := roleOfSource s, content := action_to_str (.ipythonRunCell c t s) }
  | .browseInteractive b t s =>
      some { role := roleOfSource s, content := action_to_str (.browseInteractive b t s) }
  | .message c s =>
      some { role := roleOfSource s, content := action_to_str (.message c s) }
  | .summarize s =>
      some { role := roleOfSource s, content := action_to_str (.summarize s) }
  | .finishAction _ _ => none

/-- The base64-image marker searched for per line in interpreter output. -/
def base64Marker : List Char := "![image](data:image/png;base64,".toList

/-- The placeholder that replaces a base64-image line. -/
def base64Placeholder : List Char :=
  "![image](data:image/png;base64, ...) already displayed to user".toList

def newlineChar : Char := '\n'

/-- `get_observation_message` (source lines 79-104).  Note two quirks of the
source, both modelled faithfully: the command-result annotation ends in a
doubled bracket `]]`, and the summary branch computes the prefixed content but
then returns `obs.content` raw. -/
def get_observation_message : ObservationEv → Option Msg
  | .cmdOutput content cid ec =>
      some { role := "user".toList,
             content :=
               "OBSERVATION:\n".toList ++ truncate_observation content 10000 ++
                 ("\n[Command ".toList ++ (toString cid).toList ++
                   " finished with exit code ".toList ++ (toString ec).toList ++
                   "]]".toList) }
  | .ipythonOutput content =>
      let c0 := "OBSERVATION:\n".toList ++ content
      let redacted :=
        (c0.splitOn newlineChar).map
          (fun line => if containsSub base64Marker line then base64Placeholder else line)
      some { role := "user".toList,
             content := truncate_observation (List.intercalate [newlineChar] redacted) 10000 }
  | .browserOutput content =>
      some { role := "user".toList,
             content := "OBSERVATION:\n".toList ++ truncate_observation content 10000 }
  | .summaryObs content =>
      some { role := "user".toList, content := content }
  | .otherObs => none

/-- The event-to-message dispatch of `_get_messages` (source lines 319-326). -/
def eventMessage : Event → Option Msg
  | .action a => get_action_message a
  | .observation o => get_observation_message o

/-! ### The prompt constants

`agenthub/codeact_agent/prompt.py` is not part of the provided source tree;
only its import is visible.  The stand-ins below are modelled from the spec. -/

/-- Modelled from the spec: the fixed instructional preamble of `prompt.py`
(`SYSTEM_PREFIX`); its text is not in the source tree and no claim depends on
its content, only on its fixedness. -/
def SYSTEM_PREFIX : List Char := "SYSTEM_PREFIX".toList

/-- Modelled from the spec: the collaboration-platform addendum
(`GITHUB_MESSAGE` of `prompt.py`, content not in the source tree). -/
def GITHUB_MESSAGE : List Char := "GITHUB_MESSAGE".toList

/-- Modelled from the spec: the command-syntax reference (`COMMAND_DOCS` of
`prompt.py`, content not in the source tree). -/
def COMMAND_DOCS : List Char := "COMMAND_DOCS".toList

/-- Modelled from the spec: the closing instruction block (`SYSTEM_SUFFIX` of
`prompt.py`, content not in the source tree). -/
def SYSTEM_SUFFIX : List Char := "SYSTEM_SUFFIX".toList

/-- Modelled from the spec: the fixed worked example (`EXAMPLES` of
`prompt.py`, content not in the source tree). -/
def EXAMPLES : List Char := "EXAMPLES".toList

/-- The static configuration toggle (source line 41). -/
def ENABLE_GITHUB : Bool := true

/-- `get_system_message` (source lines 122-126). -/
def get_system_message : List Char :=
  if ENABLE_GITHUB then
    SYSTEM_PREFIX ++ "\n".toList ++ GITHUB_MESSAGE ++ "\n\n".toList ++
      COMMAND_DOCS ++ "\n\n".toList ++ SYSTEM_SUFFIX
  else
    SYSTEM_PREFIX ++ "\n\n".toList ++ COMMAND_DOCS ++ "\n\n".toList ++ SYSTEM_SUFFIX

/-- The class attribute `system_message`. -/
def system_message : List Char := get_system_message

/-- The class attribute `in_context_example` (source line 181); the wording
around the spec-modelled `EXAMPLES` follows the source f-string (with the
apostrophe of the final interjection elided). -/
def in_context_example : List Char :=
  "Here is an example of how you can interact with the environment for task solving:\n".toList ++
    EXAMPLES ++ "\n\nNOW, LETS START!".toList

/-- The class attribute `jupyter_kernel_init_code` (source line 178). -/
def jupyter_kernel_init_code : List Char := "from agentskills import *".toList

/-! ### Task state and the history renderer -/

/-- The slice of the shared task `State` read and written by this agent:
the event history, the iteration counters, and the running character total. -/
structure State where
  history : List Event
  iteration : Int
  max_iterations : Int
  num_of_chars : Nat
deriving DecidableEq

/-- The iteration-reminder line appended to the latest user message
(source lines 334-336). -/
def reminderText (st : State) : List Char :=
  "\n\nENVIRONMENT REMINDER: You have ".toList ++
    (toString (st.max_iterations - st.iteration)).toList ++
    " turns left to complete the task.".toList

/-- The fixed system preamble message (source line 312). -/
def sysMsg : Msg := { role := "system".toList, content := system_message }

/-- The fixed worked-example message (source lines 313-316). -/
def exMsg : Msg := { role := "user".toList, content := in_context_example }

/-- The two fixed leading messages of every prompt (source lines 311-317). -/
def initialMessages : List Msg := [sysMsg, exMsg]

/-- The message sequence before the reminder step: the fixed preamble and
example followed by the rendered history. -/
def renderedMessages (st : State) : List Msg :=
  initialMessages ++ st.history.filterMap eventMessage

/-- Content of the most recent message with role `user`
(`next((m for m in reversed(messages) if m['role'] == 'user'), None)`). -/
def lastUserContent? : List Msg → Option (List Char)
  | [] => none
  | m :: rest =>
    match lastUserContent? rest with
    | some c => some c
    | none => if m.role = "user".toList then some m.content else none

/-- Append `suffix` to the content of the most recent user-role message,
leaving every other message unchanged (the in-place dict mutation of
`_get_messages`). -/
def appendToLastUser (suffix : List Char) : List Msg → List Msg
  | [] => []
  | m :: rest =>
    if (lastUserContent? rest).isSome then m :: appendToLastUser suffix rest
    else if m.role = "user".toList then
      { m with content := m.content ++ suffix } :: rest
    else m :: rest

/-- `_get_messages` (source lines 310-338): render the history, then either
return it unchanged when the most recent user message is the `/exit` sentinel
(or when no user message exists), or append the iteration reminder to that
most recent user message. -/
def get_messages (st : State) : List Msg :=
  let messages := renderedMessages st
  match lastUserContent? messages with
  | none => messages
  | some c =>
    if pyStrip c = "/exit".toList then messages
    else appendToLastUser (reminderText st) messages

/-! ### The response decoder -/

/-- The action returned by one `step` call: the constructor arguments are the
fields the source sets (`AgentFinishAction(thought=...)`,
`CmdRunAction(command, thought)`, `IPythonRunCellAction(code, thought,
kernel_init_code)`, `BrowseInteractiveAction(browser_actions, thought)`,
`MessageAction(content, wait_for_response)`). -/
inductive DecodedAction
  | finish (thought : List Char)
  | cmdRun (command thought : List Char)
  | ipythonRun (code thought kernel_init_code : List Char)
  | browse (browser_actions thought : List Char)
  | message (content : List Char) (wait_for_response : Bool)
deriving DecidableEq

/-- The code payload of a run-interpreter-cell action, if the action is one. -/
def decodedCode : DecodedAction → Option (List Char)
  | .ipythonRun c _ _ => some c
  | _ => none

/-- The decode cascade of `step` (source lines 268-305), applied to the
(already pre-passed) `action_str`.  Priority order: greedy `<finish>.*</finish>`,
lazy `<execute_bash>(.*?)</execute_bash>` (with the literal `exit` escape
hatch), lazy `<execute_ipython>(.*?)</execute_ipython>`, greedy
`<execute_browse>(.*)</execute_browse>`, else a send-message action.  In each
matched case the thought is the text with every occurrence of the matched
span removed (`str.replace`) and stripped. -/
def decode (s : List Char) : DecodedAction :=
  match matchGreedy finishOpen finishClose s with
  | some (_, g, _) =>
      DecodedAction.finish (pyStrip (replaceAll (finishOpen ++ g ++ finishClose) s))
  | none =>
    match matchLazy bashOpen bashClose s with
    | some (_, g, _) =>
        if pyStrip g = "exit".toList then DecodedAction.finish []
        else
          DecodedAction.cmdRun (pyStrip g)
            (pyStrip (replaceAll (bashOpen ++ g ++ bashClose) s))
    | none =>
      match matchLazy ipythonOpen ipythonClose s with
      | some (_, g, _) =>
          DecodedAction.ipythonRun (pyStrip g)
            (pyStrip (replaceAll (ipythonOpen ++ g ++ ipythonClose) s))
            jupyter_kernel_init_code
      | none =>
        match matchGreedy browseOpen browseClose s with
        | some (_, g, _) =>
            DecodedAction.browse (pyStrip g)
              (pyStrip (replaceAll (browseOpen ++ g ++ browseClose) s))
        | none => DecodedAction.message s true

/-! ### The turn orchestrator

`step` interacts with three external collaborators: the completion service
(`self.llm.completion`), the summarization component
(`self.memory_condenser.is_over_token_limit` / `.condense`) and the history
sink (`state.history.replace_events_with_summary`).  They are modelled as an
environment of opaque functions; the completion outcome may depend on how
many completion calls were made before (so that scenarios like
"always raises context-window-exceeded" are expressible). -/

/-- Outcome of one completion call: a response text, the distinguished
`ContextWindowExceededError`, or any other exception. -/
inductive CompletionOutcome
  | success (text : List Char)
  | contextWindowExceeded
  | otherError
deriving DecidableEq

/-- The external collaborators of `step`. -/
structure StepEnv where
  completion : Nat → List Msg → CompletionOutcome
  condense : List Event → Option Event
  replaceWithSummary : List Event → Event → List Event
  overTokenLimit : List Msg → Bool

/-- Outcome of the retry loop of `step`, recording the total number of
completion calls made. -/
inductive LoopOutcome
  | gotResponse (text : List Char) (st : State) (msgs : List Msg) (calls : Nat)
  | fatalContextLimit (calls : Nat)
  | propagatedOther (calls : Nat)
  | noResponse (calls : Nat)
  | fuelExhausted (calls : Nat)
deriving DecidableEq

/-- The `while not response and attempt < 3` retry loop of `step` (source
lines 241-261), together with `_retry_with_condense` (source lines 340-356)
inlined at its only call sites.  The loop is transcribed faithfully: the
`attempt` counter is threaded but — exactly as in the source — never
incremented by the loop body.  `fuel` bounds the number of iterations the
model unfolds (the source has no such bound); `fuelExhausted` reports that
the loop was still running after `fuel` iterations.  A `ContextWindowLimit`
raised by `_retry_with_condense` propagates out of the loop
(`fatalContextLimit`), as do non-context-window completion errors
(`propagatedOther`). -/
def retryLoop (env : StepEnv) :
    Nat → State → List Msg → Nat → Nat → LoopOutcome
  | 0, _, _, _, calls => .fuelExhausted calls
  | fuel + 1, st, msgs, attempt, calls =>
    if attempt < 3 then
      match env.completion calls msgs with
      | .success t => .gotResponse t st msgs (calls + 1)
      | .otherError => .propagatedOther (calls + 1)
      | .contextWindowExceeded =>
        match env.condense st.history with
        | some ev =>
          let st2 : State := { st with history := env.replaceWithSummary st.history ev }
          retryLoop env fuel st2 (get_messages st2) attempt (calls + 1)
        | none => .fatalContextLimit (calls + 1)
    else .noResponse calls

/-- Outcome of one `step` call. -/
inductive StepOutcome
  | action (a : DecodedAction) (st : State) (calls : Nat)
  | fatalContextLimit (calls : Nat)
  | propagatedOther (calls : Nat)
  | noneResponseError (calls : Nat)
  | fuelExhausted (calls : Nat)
deriving DecidableEq

/-- The tail of `step` after the retry loop (source lines 263-305): apply the
`parse_response` pre-pass, update the running character count with the summed
message lengths plus the response length, and decode.  A loop exit with no
response would crash on `response.choices` (`noneResponseError`); error
outcomes propagate. -/
def finishStep : LoopOutcome → StepOutcome
  | .gotResponse t st msgs calls =>
    let action_str := parse_response t
    .action (decode action_str)
      { st with num_of_chars :=
          st.num_of_chars + (msgs.map (fun m => m.content.length)).sum +
            action_str.length }
      calls
  | .fatalContextLimit calls => .fatalContextLimit calls
  | .propagatedOther calls => .propagatedOther calls
  | .noResponse calls => .noneResponseError calls
  | .fuelExhausted calls => .fuelExhausted calls

/-- `step` after the pre-emptive condensation block (source lines 235-305):
the `/exit` sentinel short-circuit, then the retry loop and decode. -/
def stepAfterPre (env : StepEnv) (fuel : Nat) (st : State) (messages : List Msg) :
    StepOutcome :=
  match lastUserContent? messages with
  | some c =>
    if pyStrip c = "/exit".toList then .action (.finish []) st 0
    else finishStep (retryLoop env fuel st messages 0 0)
  | none => finishStep (retryLoop env fuel st messages 0 0)

/-- `CodeActAgent.step` (source lines 206-305): render the prompt, run the
pre-emptive condensation check (`_retry_with_condense` raising
`ContextWindowLimit` when the condenser yields nothing), then the sentinel
check, the retry loop, and the decode tail. -/
def stepModel (env : StepEnv) (fuel : Nat) (st : State) : StepOutcome :=
  let messages0 := get_messages st
  if env.overTokenLimit messages0 then
    match env.condense st.history with
    | some ev =>
      let st1 : State := { st with history := env.replaceWithSummary st.history ev }
      stepAfterPre env fuel st1 (get_messages st1)
    | none => .fatalContextLimit 0
  else stepAfterPre env fuel st messages0

/-! ### Concrete scenarios -/

/-- A summary event, as spliced into history by the condenser. -/
def summaryEv : Event := Event.action (ActionEv.summarize EventSource.agent)

/-- A task state with empty history. -/
def st0 : State :=
  { history := [], iteration := 0, max_iterations := 10, num_of_chars := 0 }

/-- A completion service that raises context-window-exceeded on every call,
with a condenser that always finds something to condense: the scenario under
which the claimed 3-attempt bound would have to bind. -/
def badEnv : StepEnv :=
  { completion := fun _ _ => CompletionOutcome.contextWindowExceeded,
    condense := fun _ => some summaryEv,
    replaceWithSummary := fun _ ev => [ev],
    overTokenLimit := fun _ => false }

/-- A completion service that raises context-window-exceeded on every call,
with a condenser that can condense a history of at least two events down to
one summary but then has nothing left to condense. -/
def envNothingLeft : StepEnv :=
  { completion := fun _ _ => CompletionOutcome.contextWindowExceeded,
    condense := fun h => if 2 ≤ h.length then some summaryEv else none,
    replaceWithSummary := fun _ ev => [ev],
    overTokenLimit := fun _ => false }

/-- A benign environment: completions succeed, no token-limit pressure. -/
def trivialEnv : StepEnv :=
  { completion := fun _ _ => CompletionOutcome.success [],
    condense := fun _ => none,
    replaceWithSummary := fun h _ => h,
    overTokenLimit := fun _ => false }

/-- A task state holding two history events. -/
def stTwoEvents : State :=
  { history :=
      [Event.action (ActionEv.message ("hi".toList) EventSource.user),
       Event.observation (ObservationEv.cmdOutput ("ok".toList) 0 0)],
    iteration := 0, max_iterations := 10, num_of_chars := 0 }

/-- A task state whose latest rendered user message is the `/exit` sentinel. -/
def stExit : State :=
  { history := [Event.action (ActionEv.message ("/exit".toList) EventSource.user)],
    iteration := 0, max_iterations := 10, num_of_chars := 0 }

/-- A task state whose latest rendered user message is an ordinary message. -/
def stHello : State :=
  { history := [Event.action (ActionEv.message ("hello".toList) EventSource.user)],
    iteration := 0, max_iterations := 10, num_of_chars := 0 }

/-! ### Claims about the response decoder (C3, C4, C5, C8) -/

/-- C3: for every response text containing both a `<finish>...</finish>` span
and an `<execute_bash>...</execute_bash>` span, the decoder returns a finish
action (priority rule 1 wins over rule 2), with thought equal to the full
text with the matched finish span removed and trimmed. -/
theorem c3_finish_priority (s p g q p2 g2 q2 : List Char)
    (hfin : matchGreedy finishOpen finishClose s = some (p, g, q))
    (_hbash : matchLazy bashOpen bashClose s = some (p2, g2, q2)) :
    decode s =
      DecodedAction.finish (pyStrip (replaceAll (finishOpen ++ g ++ finishClose) s)) := by
  simp only [decode, hfin]

/-- Witness for C3 at a concrete text containing both spans. -/
theorem c3_witness :
    decode ("<finish></finish><execute_bash>ls</execute_bash>".toList) =
      DecodedAction.finish ("<execute_bash>ls</execute_bash>".toList) := by
  have h := c3_finish_priority ("<finish></finish><execute_bash>ls</execute_bash>".toList)
    [] [] ("<execute_bash>ls</execute_bash>".toList)
    ("<finish></finish>".toList) ("ls".toList) []
    (by decide) (by decide)
  rw [h]
  decide

/-- C4: for every response text without a finish match whose first lazy
`<execute_bash>CMD</execute_bash>` match has trimmed `CMD` equal to the
literal `exit`, the decoder returns a finish action rather than a run-command
action; for any other trimmed `CMD` it returns a run-command action whose
command equals the trimmed `CMD`. -/
theorem c4_bash_exit_escape (s p g q : List Char)
    (hfin : matchGreedy finishOpen finishClose s = none)
    (hbash : matchLazy bashOpen bashClose s = some (p, g, q)) :
    (pyStrip g = "exit".toList → decode s = DecodedAction.finish []) ∧
    (pyStrip g ≠ "exit".toList →
      ∃ t, decode s = DecodedAction.cmdRun (pyStrip g) t) := by
  constructor
  · intro hx
    simp only [decode, hfin, hbash, if_pos hx]
  · intro hx
    simp only [decode, hfin, hbash, if_neg hx]
    exact ⟨_, rfl⟩

/-- Witness for C4 at both branches: `exit` and an ordinary command. -/
theorem c4_witness :
    decode ("<execute_bash>exit</execute_bash>".toList) = DecodedAction.finish [] ∧
    ∃ t, decode ("<execute_bash> ls </execute_bash>".toList) =
      DecodedAction.cmdRun ("ls".toList) t := by
  constructor
  · exact (c4_bash_exit_escape ("<execute_bash>exit</execute_bash>".toList)
      [] ("exit".toList) [] (by decide) (by decide)).1 (by decide)
  · have h := (c4_bash_exit_escape ("<execute_bash> ls </execute_bash>".toList)
      [] (" ls ".toList) [] (by decide) (by decide)).2 (by decide)
    have hg : pyStrip (" ls ".toList) = "ls".toList := by decide
    rw [hg] at h
    exact h

/-- C5, counterexample: on the input `<execute_ipython>print(1)</execute_ipython`
(closing tag truncated) the pre-pass does append the missing closing tag, but
the lazy group of the repaired text extends through the partial closing tag,
so the extracted code is `print(1)</execute_ipython`, not `print(1)` as
claimed. -/
theorem c5_counterexample :
    decodedCode (decode (parse_response ("<execute_ipython>print(1)</execute_ipython".toList))) =
      some ("print(1)</execute_ipython".toList) ∧
    decodedCode (decode (parse_response ("<execute_ipython>print(1)</execute_ipython".toList))) ≠
      some ("print(1)".toList) := by
  constructor
  · decide
  · decide

/-- C5, amended: for the input text `<execute_ipython>print(1)</execute_ipython`
(opening tag present, closing tag truncated), the pre-pass repair appends the
missing closing tag and the decoder returns a run-interpreter-cell action
whose extracted code equals `print(1)</execute_ipython` (the partial closing
tag stays inside the lazily matched group), with empty thought and the fixed
kernel-initialization snippet attached. -/
theorem c5_truncated_tag_repair :
    decode (parse_response ("<execute_ipython>print(1)</execute_ipython".toList)) =
      DecodedAction.ipythonRun ("print(1)</execute_ipython".toList) []
        jupyter_kernel_init_code := by
  decide

/-- C8: for every response text in which none of the four tag families
matches, decoding returns a send-message action whose content equals the
input text verbatim and which is marked as awaiting a reply (`decode` is a
total function, so decoding always yields exactly one action and never
fails). -/
theorem c8_no_tag_message (s : List Char)
    (h1 : matchGreedy finishOpen finishClose s = none)
    (h2 : matchLazy bashOpen bashClose s = none)
    (h3 : matchLazy ipythonOpen ipythonClose s = none)
    (h4 : matchGreedy browseOpen browseClose s = none) :
    decode s = DecodedAction.message s true := by
  simp only [decode, h1, h2, h3, h4]

/-- Witness for C8 at a concrete plain text. -/
theorem c8_witness :
    decode ("hello world".toList) =
      DecodedAction.message ("hello world".toList) true :=
  c8_no_tag_message ("hello world".toList) (by decide) (by decide) (by decide)
    (by decide)

/-! ### Claims about the observation formatter (C6, C7) -/

/-- C6: for every content string of length at most the default ceiling 10000
the formatter returns the content unchanged; for every longer content the
result is the first 5000 characters, the literal truncation-marker line, and
the last 5000 characters, so the result's prefix and suffix of length 5000
exactly match the original's. -/
theorem c6_truncate_bounds (obs : List Char) :
    (obs.length ≤ 10000 → truncate_observation obs 10000 = obs) ∧
    (10000 < obs.length →
      truncate_observation obs 10000 =
        obs.take 5000 ++ truncMarker ++ obs.drop (obs.length - 5000) ∧
      (truncate_observation obs 10000).take 5000 = obs.take 5000 ∧
      (truncate_observation obs 10000).drop
          ((truncate_observation obs 10000).length - 5000) =
        obs.drop (obs.length - 5000)) := by
  constructor
  · intro h
    unfold truncate_observation
    rw [if_pos h]
  · intro h
    have hne : ¬ obs.length ≤ 10000 := by omega
    have heq : truncate_observation obs 10000 =
        obs.take 5000 ++ truncMarker ++ obs.drop (obs.length - 5000) := by
      unfold truncate_observation pyTakeLast
      rw [if_neg hne]
      norm_num
    have hA : (obs.take 5000).length = 5000 := by
      rw [List.length_take]
      omega
    have hC : (obs.drop (obs.length - 5000)).length = 5000 := by
      rw [List.length_drop]
      omega
    refine ⟨heq, ?_, ?_⟩
    · rw [heq, List.append_assoc]
      exact List.take_left' hA
    · rw [heq]
      have hlen : (obs.take 5000 ++ truncMarker ++ obs.drop (obs.length - 5000)).length - 5000
          = (obs.take 5000 ++ truncMarker).length := by
        simp only [List.length_append, hA, hC]
        omega
      rw [hlen]
      exact List.drop_left (obs.take 5000 ++ truncMarker) (obs.drop (obs.length - 5000))

/-- Witness for C6: a 10001-character content is split around the marker, and
a short content passes through unchanged. -/
theorem c6_witness :
    truncate_observation (List.replicate 10001 'a') 10000 =
      (List.replicate 10001 'a').take 5000 ++ truncMarker ++
        (List.replicate 10001 'a').drop (10001 - 5000) ∧
    truncate_observation ("short".toList) 10000 = "short".toList := by
  constructor
  · have h := (c6_truncate_bounds (List.replicate 10001 'a')).2
      (by rw [List.length_replicate]; norm_num)
    simpa only [List.length_replicate] using h.1
  · exact (c6_truncate_bounds ("short".toList)).1 (by decide)

/-- C7: the claim asserts that every mapped Observation variant renders as a
`user`-role message whose body is `"OBSERVATION:\n"` followed by the
formatted content.  The summary branch of the source violates this: it
computes the prefixed content but then returns `obs.content` raw (source line
103), so a summary observation with content `hello` renders with body
`hello`, not `OBSERVATION:\nhello`. -/
theorem c7_summary_body_dropped :
    get_observation_message (ObservationEv.summaryObs ("hello".toList)) =
      some { role := "user".toList, content := "hello".toList } ∧
    ("hello".toList : List Char) ≠
      "OBSERVATION:\n".toList ++ truncate_observation ("hello".toList) 10000 := by
  constructor
  · decide
  · decide

/-! ### Structure lemmas for the history renderer -/

/-- When no message in the list has role `user`, the latest-user search comes
back empty. -/
theorem no_user_lastUser_none {l : List Msg}
    (h : ∀ m ∈ l, m.role ≠ "user".toList) : lastUserContent? l = none := by
  induction l with
  | nil => rfl
  | cons a rest ih =>
    unfold lastUserContent?
    rw [ih (fun m hm => h m (List.mem_cons_of_mem a hm))]
    rw [if_neg (h a (List.mem_cons_self a rest))]

/-- When the latest-user search comes back empty, no message has role `user`. -/
theorem lastUser_none_no_user {l : List Msg}
    (h : lastUserContent? l = none) : ∀ m ∈ l, m.role ≠ "user".toList := by
  induction l with
  | nil => intro m hm; cases hm
  | cons a rest ih =>
    intro m hm
    unfold lastUserContent? at h
    cases hrest : lastUserContent? rest with
    | some c => rw [hrest] at h; cases h
    | none =>
      rw [hrest] at h
      rcases List.mem_cons.mp hm with rfl | hm2
      · intro hrole
        rw [if_pos hrole] at h
        cases h
      · exact ih hrest m hm2

/-- A successful latest-user search decomposes the list around the last
user-role message, and `appendToLastUser` modifies exactly that message. -/
theorem lastUser_decomp {l : List Msg} {c : List Char}
    (h : lastUserContent? l = some c) :
    ∃ l1 m l2, l = l1 ++ m :: l2 ∧ m.role = "user".toList ∧ m.content = c ∧
      (∀ m2 ∈ l2, m2.role ≠ "user".toList) ∧
      ∀ suffix, appendToLastUser suffix l =
        l1 ++ { m with content := m.content ++ suffix } :: l2 := by
  induction l with
  | nil => cases h
  | cons a rest ih =>
    unfold lastUserContent? at h
    cases hrest : lastUserContent? rest with
    | some c2 =>
      rw [hrest] at h
      obtain rfl : c2 = c := Option.some.inj h
      obtain ⟨l1, m, l2, hsplit, hrole, hcontent, hnouser, happ⟩ := ih hrest
      refine ⟨a :: l1, m, l2, by rw [hsplit]; rfl, hrole, hcontent, hnouser, ?_⟩
      intro suffix
      unfold appendToLastUser
      rw [hrest]
      simp only [Option.isSome_some, if_true]
      rw [happ suffix]
      rfl
    | none =>
      rw [hrest] at h
      by_cases hrole : a.role = "user".toList
      · rw [if_pos hrole] at h
        obtain rfl : a.content = c := Option.some.inj h
        refine ⟨[], a, rest, rfl, hrole, rfl, lastUser_none_no_user hrest, ?_⟩
        intro suffix
        unfold appendToLastUser
        rw [hrest]
        simp only [Option.isSome_none, Bool.false_eq_true, if_false]
        rw [if_pos hrole]
        rfl
      · rw [if_neg hrole] at h
        cases h

/-! ### Claim C9: the `/exit` sentinel -/

/-- C9: for every task state whose rendered message sequence has a most
recent user-role message with trimmed content `/exit`, the history renderer
returns the sequence with no iteration reminder appended, and the turn
orchestrator returns a finish action with zero completion calls; otherwise
the reminder is appended to that most recent user message only (every other
message unchanged). -/
theorem c9_exit_sentinel (st : State) (c : List Char)
    (hlast : lastUserContent? (renderedMessages st) = some c) :
    (pyStrip c = "/exit".toList →
      get_messages st = renderedMessages st ∧
      ∀ (env : StepEnv) (fuel : Nat),
        env.overTokenLimit (get_messages st) = false →
        stepModel env fuel st = StepOutcome.action (DecodedAction.finish []) st 0) ∧
    (pyStrip c ≠ "/exit".toList →
      ∃ l1 m l2,
        renderedMessages st = l1 ++ m :: l2 ∧ m.role = "user".toList ∧
        m.content = c ∧ (∀ m2 ∈ l2, m2.role ≠ "user".toList) ∧
        get_messages st =
          l1 ++ { m with content := m.content ++ reminderText st } :: l2) := by
  constructor
  · intro hx
    have hget : get_messages st = renderedMessages st := by
      simp only [get_messages, hlast]
      rw [if_pos hx]
    refine ⟨hget, ?_⟩
    intro env fuel henv
    simp only [stepModel, henv, Bool.false_eq_true, if_false]
    simp only [stepAfterPre, hget, hlast]
    rw [if_pos hx]
  · intro hx
    obtain ⟨l1, m, l2, hsplit, hrole, hcontent, hnouser, happ⟩ := lastUser_decomp hlast
    refine ⟨l1, m, l2, hsplit, hrole, hcontent, hnouser, ?_⟩
    simp only [get_messages, hlast]
    rw [if_neg hx, happ (reminderText st)]

/-- Witness for C9: a history ending in a user `/exit` message short-circuits
to a finish action with zero completion calls, and a history ending in an
ordinary user message gets the reminder appended to that message only. -/
theorem c9_witness :
    (get_messages stExit = renderedMessages stExit ∧
      stepModel trivialEnv 3 stExit =
        StepOutcome.action (DecodedAction.finish []) stExit 0) ∧
    ∃ l1 m l2,
      renderedMessages stHello = l1 ++ m :: l2 ∧ m.role = "user".toList ∧
      m.content = "hello".toList ∧ (∀ m2 ∈ l2, m2.role ≠ "user".toList) ∧
      get_messages stHello =
        l1 ++ { m with content := m.content ++ reminderText stHello } :: l2 := by
  constructor
  · have h := (c9_exit_sentinel stExit ("/exit".toList) (by decide)).1 (by decide)
    exact ⟨h.1, h.2 trivialEnv 3 rfl⟩
  · exact (c9_exit_sentinel stHello ("hello".toList) (by decide)).2 (by decide)

/-! ### Claim C10: shape of the rendered prompt -/

/-- Roles derived from an event source are `user` or `assistant`. -/
theorem roleOfSource_user_or_assistant (s : EventSource) :
    roleOfSource s = "user".toList ∨ roleOfSource s = "assistant".toList := by
  cases s
  · exact Or.inl rfl
  · exact Or.inr rfl

/-- Every message produced from a history event has role `user` or
`assistant`. -/
theorem eventMessage_role {ev : Event} {m : Msg} (h : eventMessage ev = some m) :
    m.role = "user".toList ∨ m.role = "assistant".toList := by
  cases ev with
  | action a =>
    cases a with
    | cmdRun c t s =>
      simp only [eventMessage, get_action_message, Option.some.injEq] at h
      rw [← h]
      exact roleOfSource_user_or_assistant s
    | ipythonRunCell c t s =>
      simp only [eventMessage, get_action_message, Option.some.injEq] at h
      rw [← h]
      exact roleOfSource_user_or_assistant s
    | browseInteractive b t s =>
      simp only [eventMessage, get_action_message, Option.some.injEq] at h
      rw [← h]
      exact roleOfSource_user_or_assistant s
    | message c s =>
      simp only [eventMessage, get_action_message, Option.some.injEq] at h
      rw [← h]
      exact roleOfSource_user_or_assistant s
    | summarize s =>
      simp only [eventMessage, get_action_message, Option.some.injEq] at h
      rw [← h]
      exact roleOfSource_user_or_assistant s
    | finishAction t s =>
      simp only [eventMessage, get_action_message] at h
      exact Option.noConfusion h
  | observation o =>
    cases o with
    | cmdOutput c i e =>
      simp only [eventMessage, get_observation_message, Option.some.injEq] at h
      rw [← h]
      exact Or.inl rfl
    | ipythonOutput c =>
      simp only [eventMessage, get_observation_message, Option.some.injEq] at h
      rw [← h]
      exact Or.inl rfl
    | browserOutput c =>
      simp only [eventMessage, get_observation_message, Option.some.injEq] at h
      rw [← h]
      exact Or.inl rfl
    | summaryObs c =>
      simp only [eventMessage, get_observation_message, Option.some.injEq] at h
      rw [← h]
      exact Or.inl rfl
    | otherObs =>
      simp only [eventMessage, get_observation_message] at h
      exact Option.noConfusion h

/-- Unfolding step for `appendToLastUser` when a user message occurs later in
the list: the head is kept unchanged. -/
theorem appendToLastUser_cons_skip {suffix : List Char} {a : Msg} {rest : List Msg}
    (h : (lastUserContent? rest).isSome = true) :
    appendToLastUser suffix (a :: rest) = a :: appendToLastUser suffix rest := by
  simp only [appendToLastUser]
  rw [if_pos h]

/-- Unfolding step for `appendToLastUser` at the last user message: the
suffix is appended to its content. -/
theorem appendToLastUser_cons_user {suffix : List Char} {a : Msg} {rest : List Msg}
    (h : lastUserContent? rest = none) (h2 : a.role = "user".toList) :
    appendToLastUser suffix (a :: rest) =
      { a with content := a.content ++ suffix } :: rest := by
  unfold appendToLastUser
  rw [h]
  simp only [Option.isSome_none, Bool.false_eq_true, if_false]
  rw [if_pos h2]

/-- `appendToLastUser` changes only the content of one message: every member
of the result shares its role with some member of the input. -/
theorem appendToLastUser_mem_role {suffix : List Char} {l : List Msg} {m : Msg}
    (h : m ∈ appendToLastUser suffix l) : ∃ m0 ∈ l, m.role = m0.role := by
  induction l with
  | nil => cases h
  | cons a rest ih =>
    unfold appendToLastUser at h
    by_cases h1 : (lastUserContent? rest).isSome = true
    · rw [if_pos h1] at h
      rcases List.mem_cons.mp h with hma | hm
      · exact ⟨a, List.mem_cons_self a rest, by rw [hma]⟩
      · obtain ⟨m0, hm0, hr⟩ := ih hm
        exact ⟨m0, List.mem_cons_of_mem a hm0, hr⟩
    · rw [if_neg h1] at h
      by_cases h2 : a.role = "user".toList
      · rw [if_pos h2] at h
        rcases List.mem_cons.mp h with hma | hm
        · exact ⟨a, List.mem_cons_self a rest, by rw [hma]⟩
        · exact ⟨m, List.mem_cons_of_mem a hm, rfl⟩
      · rw [if_neg h2] at h
        rcases List.mem_cons.mp h with hma | hm
        · exact ⟨a, List.mem_cons_self a rest, by rw [hma]⟩
        · exact ⟨m, List.mem_cons_of_mem a hm, rfl⟩

/-- C10: for every task state (including one with empty history), the
rendered message list begins with exactly one system-role message followed by
the worked-example user-role message (the latter possibly carrying the
iteration reminder), every later message has role `user` or `assistant`, a
user-role message always exists in the rendered list, and when no history
event renders as a user message (the sentinel then being absent, since the
worked example is not `/exit`), the iteration reminder is appended to the
worked-example message itself. -/
theorem c10_prompt_shape (st : State) :
    (∃ ex rest,
      get_messages st = sysMsg :: { role := "user".toList, content := ex } :: rest ∧
      (ex = in_context_example ∨ ex = in_context_example ++ reminderText st) ∧
      ∀ m ∈ rest, m.role = "user".toList ∨ m.role = "assistant".toList) ∧
    (∃ m ∈ get_messages st, m.role = "user".toList) ∧
    ((∀ m ∈ st.history.filterMap eventMessage, m.role ≠ "user".toList) →
      get_messages st =
        sysMsg ::
          { role := "user".toList, content := in_context_example ++ reminderText st } ::
            st.history.filterMap eventMessage) := by
  have histRoles : ∀ m ∈ st.history.filterMap eventMessage,
      m.role = "user".toList ∨ m.role = "assistant".toList := by
    intro m hm
    obtain ⟨ev, _, hev⟩ := List.mem_filterMap.mp hm
    exact eventMessage_role hev
  have hrend : renderedMessages st =
      sysMsg :: exMsg :: st.history.filterMap eventMessage := rfl
  have hnone_case : lastUserContent? (st.history.filterMap eventMessage) = none →
      get_messages st =
        sysMsg ::
          { role := "user".toList, content := in_context_example ++ reminderText st } ::
            st.history.filterMap eventMessage := by
    intro hh
    have h1 : lastUserContent? (exMsg :: st.history.filterMap eventMessage) =
        some in_context_example := by
      unfold lastUserContent?
      rw [hh]
      rfl
    have hlast : lastUserContent? (renderedMessages st) = some in_context_example := by
      rw [hrend]
      unfold lastUserContent?
      rw [h1]
    have hx : ¬ pyStrip in_context_example = "/exit".toList := by decide
    simp only [get_messages, hlast]
    rw [if_neg hx, hrend]
    rw [appendToLastUser_cons_skip (by rw [h1]; rfl)]
    rw [appendToLastUser_cons_user hh rfl]
    rfl
  have hmain :
      ∃ ex rest,
        get_messages st = sysMsg :: { role := "user".toList, content := ex } :: rest ∧
        (ex = in_context_example ∨ ex = in_context_example ++ reminderText st) ∧
        ∀ m ∈ rest, m.role = "user".toList ∨ m.role = "assistant".toList := by
    cases hh : lastUserContent? (st.history.filterMap eventMessage) with
    | some c =>
      have h1 : lastUserContent? (exMsg :: st.history.filterMap eventMessage) = some c := by
        unfold lastUserContent?
        rw [hh]
      have hlast : lastUserContent? (renderedMessages st) = some c := by
        rw [hrend]
        unfold lastUserContent?
        rw [h1]
      by_cases hx : pyStrip c = "/exit".toList
      · refine ⟨in_context_example, st.history.filterMap eventMessage, ?_, Or.inl rfl,
          histRoles⟩
        simp only [get_messages, hlast]
        rw [if_pos hx, hrend]
        rfl
      · refine ⟨in_context_example,
          appendToLastUser (reminderText st) (st.history.filterMap eventMessage), ?_,
          Or.inl rfl, ?_⟩
        · simp only [get_messages, hlast]
          rw [if_neg hx, hrend]
          rw [appendToLastUser_cons_skip (by rw [h1]; rfl)]
          rw [appendToLastUser_cons_skip (by rw [hh]; rfl)]
          rfl
        · intro m hm
          obtain ⟨m0, hm0, hr⟩ := appendToLastUser_mem_role hm
          rw [hr]
          exact histRoles m0 hm0
    | none =>
      exact ⟨in_context_example ++ reminderText st, st.history.filterMap eventMessage,
        hnone_case hh, Or.inr rfl, histRoles⟩
  refine ⟨hmain, ?_, ?_⟩
  · obtain ⟨ex, rest, hget, _, _⟩ := hmain
    exact ⟨{ role := "user".toList, content := ex }, by
      rw [hget]
      exact List.mem_cons_of_mem sysMsg (List.mem_cons_self _ rest), rfl⟩
  · intro hnou
    exact hnone_case (no_user_lastUser_none hnou)

/-- Witness for C10: with an empty history the reminder lands on the
worked-example message itself. -/
theorem c10_witness :
    get_messages st0 =
      sysMsg ::
        { role := "user".toList, content := in_context_example ++ reminderText st0 } ::
          [] := by
  have h := (c10_prompt_shape st0).2.2 (by intro m hm; cases hm)
  simpa using h

/-! ### Claims about the retry loop (C1, C2) -/

/-- Under a completion service that always raises context-window-exceeded and
a condenser that always yields a summary, the retry loop is still running
after any number of iterations, having made one completion call per
iteration: nothing ever bounds it. -/
theorem retryLoop_badEnv_unbounded (f : Nat) :
    ∀ (st : State) (msgs : List Msg) (calls : Nat),
      retryLoop badEnv f st msgs 0 calls = LoopOutcome.fuelExhausted (calls + f) := by
  induction f with
  | zero =>
    intro st msgs calls
    simp [retryLoop]
  | succ f ih =>
    intro st msgs calls
    have hstep : retryLoop badEnv (f + 1) st msgs 0 calls =
        retryLoop badEnv f { st with history := [summaryEv] }
          (get_messages { st with history := [summaryEv] }) 0 (calls + 1) := rfl
    rw [hstep, ih]
    congr 1
    omega

/-- C1 fails on the code: the claim says the orchestrator calls the
completion service at most 3 times per turn and terminates, but the loop
guard `while not response and attempt < 3` never sees `attempt` change (the
loop body does not increment it, contradicting the `# give it 3 tries`
comment).  Under a completion service that always raises
context-window-exceeded and a condenser that always returns a summary, after
`n` loop iterations the orchestrator has made `n` completion calls and is
still looping — in particular more than 3 calls occur and the turn never
terminates on its own. -/
theorem c1_attempts_unbounded (n : Nat) :
    stepModel badEnv n st0 = StepOutcome.fuelExhausted n := by
  have h0 : stepModel badEnv n st0 =
      finishStep (retryLoop badEnv n st0 (get_messages st0) 0 0) := rfl
  rw [h0, retryLoop_badEnv_unbounded n st0 (get_messages st0) 0]
  simp [finishStep]

/-- C2: whenever a completion call fails with context-window-exceeded and
the condenser yields no summary, `_retry_with_condense` raises the fatal
context-window-limit error, which propagates out of the loop with no further
completion call (exactly `calls + 1` calls total); concretely, with a
completion service that always overflows and two events condensable to one
summary, the turn makes exactly 2 completion calls and surfaces the fatal
error (never a further call). -/
theorem c2_condense_none_fatal :
    (∀ (env : StepEnv) (fuel : Nat) (st : State) (msgs : List Msg) (calls : Nat),
      env.completion calls msgs = CompletionOutcome.contextWindowExceeded →
      env.condense st.history = none →
      retryLoop env (fuel + 1) st msgs 0 calls =
        LoopOutcome.fatalContextLimit (calls + 1)) ∧
    stepModel envNothingLeft 10 stTwoEvents = StepOutcome.fatalContextLimit 2 := by
  constructor
  · intro env fuel st msgs calls hcwe hnone
    have h1 : retryLoop env (fuel + 1) st msgs 0 calls =
        match env.completion calls msgs with
        | .success t => LoopOutcome.gotResponse t st msgs (calls + 1)
        | .otherError => LoopOutcome.propagatedOther (calls + 1)
        | .contextWindowExceeded =>
          match env.condense st.history with
          | some ev =>
            retryLoop env fuel
              { st with history := env.replaceWithSummary st.history ev }
              (get_messages { st with history := env.replaceWithSummary st.history ev })
              0 (calls + 1)
          | none => LoopOutcome.fatalContextLimit (calls + 1) := rfl
    rw [h1, hcwe, hnone]
  · decide

/-- Witness for C2 at a concrete environment whose condenser has nothing to
condense: the very first overflowing call is fatal. -/
theorem c2_witness :
    retryLoop envNothingLeft 1 st0 [] 0 0 = LoopOutcome.fatalContextLimit 1 :=
  c2_condense_none_fatal.1 envNothingLeft 0 st0 [] 0 rfl rfl

end CodeAct
